import Mathlib

/-!
Shallow embedding of the LearnSphere AI content-generation pipeline
(`ContentProcessor.processContent` and its collaborators: `TextValidator`,
`ChromeAIService`, the stage helpers `extractConcepts`, `generateMindMap`,
`createAudioSegments`, `parseQuizQuestions`, `mapGradeToDifficulty`, and the
progress plumbing `updateProgress`).

External generative calls (Chrome `Summarizer` / `Rewriter` / `Writer`) are
modelled by an oracle supplying, per call, whether handle creation succeeds and
whether the transformation resolves or rejects, together with the resolved
output string.  Wall-clock derived fields (`Date.now()` timestamps,
`processingTime`, `stepTimes`, `totalTime`) are abstracted away: no verified
property mentions them.  Audio times are exact rationals standing for the
JavaScript float arithmetic `index * (totalDuration / sentences.length)`.
-/

namespace LearnSphere

/-! ## JavaScript string helpers

All string manipulation is modelled over the character list `String.data`,
mirroring the JavaScript semantics of the source directly. -/

/-- Split a character list at every character satisfying `p`; consecutive
separators produce empty fragments (the semantics of both JS
`split(singleChar)` and a single-character regex class). -/
def listSplit (p : Char → Bool) : List Char → List (List Char)
  | [] => [[]]
  | c :: rest =>
    let r := listSplit p rest
    if p c then [] :: r
    else
      match r with
      | [] => [[c]]
      | f :: t => (c :: f) :: t

/-- JS `s.trim()`: strip leading and trailing whitespace. -/
def jsTrim (s : String) : String :=
  String.mk (((s.data.dropWhile Char.isWhitespace).reverse.dropWhile
    Char.isWhitespace).reverse)

/-- JS `s.toLowerCase()` (per-character, ASCII-relevant range). -/
def jsToLower (s : String) : String := String.mk (s.data.map Char.toLower)

/-- JS `s.split(/\s+/)`: splits on maximal whitespace runs; a leading
(resp. trailing) whitespace run contributes an empty first (resp. last)
fragment, and the empty string yields `[""]`. -/
def jsSplitWS (s : String) : List String :=
  match s.data with
  | [] => [""]
  | c :: rest =>
    let core := ((listSplit Char.isWhitespace (c :: rest)).filter
      (fun t => ¬ t.isEmpty)).map String.mk
    (if c.isWhitespace then [""] else []) ++ core
      ++ (if ((c :: rest).getLastD c).isWhitespace then [""] else [])

/-- `TextValidator.countWords`: `text.trim().split(/\s+/).length`, with an
early `0` for blank text. -/
def countWords (text : String) : Nat :=
  if jsTrim text = "" then 0
  else ((listSplit Char.isWhitespace (jsTrim text).data).filter
    (fun t => ¬ t.isEmpty)).length

/-- Does `pat` occur as a prefix of `l`? -/
def listStartsWithPat : List Char → List Char → Bool
  | _, [] => true
  | [], _ :: _ => false
  | c :: l, p :: pat => c = p ∧ listStartsWithPat l pat

/-- The suffix of `l` following the first occurrence of `pat`, if any. -/
def afterFirst (l pat : List Char) : Option (List Char) :=
  match l with
  | [] => if pat.isEmpty then some [] else none
  | _ :: t => if listStartsWithPat l pat then some (l.drop pat.length) else afterFirst t pat

/-- Does `pat` occur anywhere in `l`? -/
def listContainsSub (l pat : List Char) : Bool := (afterFirst l pat).isSome

/-- Approximation of the validator's paired-tag regexes
(`/<script\b[^<]*(?:(?!<\/script>)<[^<]*)*<\/script>/gi` and the analogous
iframe pattern): some occurrence of the opening tag is followed by the closing
tag, case-insensitively. -/
def containsTagPair (s opener closer : String) : Bool :=
  match afterFirst (jsToLower s).data opener.data with
  | none => false
  | some rest => listContainsSub rest closer.data

/-! ## TextValidator (`src/utils/text-validator.ts`)

Only the error-producing checks are embedded; the validator's warnings are
advisory and never influence `isValid` nor any pipeline decision. -/

structure ContentValidation where
  isValid : Bool
  errors : List String
  wordCount : Nat
  characterCount : Nat
  deriving Repr, DecidableEq

/-- `TextValidator.validate` restricted to its error channel, with
`DEFAULT_CONTENT_LIMITS` (50 / 50000 characters, 10 / 10000 words).
`getTextStatistics` reports 0 characters for blank input (early return). -/
def validate (content : String) : ContentValidation :=
  let characters := if jsTrim content = "" then 0 else content.length
  let words := countWords content
  let lengthErrors :=
    (if characters < 50 then
      ["Content must be at least 50 characters long (currently " ++ toString characters ++ ")"]
     else []) ++
    (if characters > 50000 then
      ["Content must not exceed 50000 characters (currently " ++ toString characters ++ ")"]
     else []) ++
    (if words < 10 then
      ["Content must contain at least 10 words (currently " ++ toString words ++ ")"]
     else []) ++
    (if words > 10000 then
      ["Content must not exceed 10000 words (currently " ++ toString words ++ ")"]
     else [])
  let qualityErrors :=
    if ¬ content.data.any Char.isAlphanum then ["Content must contain alphanumeric characters"]
    else []
  let securityErrors :=
    if content.data.all Char.isWhitespace
        ∨ containsTagPair content "<script" "</script>"
        ∨ containsTagPair content "<iframe" "</iframe>" then
      ["Content contains forbidden patterns or potentially unsafe elements"]
    else []
  let errors := lengthErrors ++ qualityErrors ++ securityErrors
  { isValid := errors.isEmpty
    errors := errors
    wordCount := words
    characterCount := characters }

/-! ## User preferences (`src/types/user-preferences.ts`) -/

inductive Complexity where
  | elementary | middle | high | college
  deriving Repr, DecidableEq

inductive GradeLevel where
  | g1 | g2 | g3 | g4 | g5 | g6 | g7 | g8 | g9 | g10 | g11 | g12 | undergrad
  deriving Repr, DecidableEq

/-- The `complexity` column of `GRADE_LEVEL_INFO`. -/
def gradeComplexity : GradeLevel → Complexity
  | .g1 | .g2 | .g3 | .g4 | .g5 => .elementary
  | .g6 | .g7 | .g8 => .middle
  | .g9 | .g10 | .g11 | .g12 => .high
  | .undergrad => .college

inductive Interest where
  | reading | science | art | writing | photography | nature | soccer | cycling
  | cooking | gaming | basketball | football | tableTennis | tennis | technology
  | skateboarding
  deriving Repr, DecidableEq

structure UserPreferences where
  gradeLevel : GradeLevel
  interest : Interest
  deriving Repr, DecidableEq

/-! ## Quiz (`ContentProcessor.mapGradeToDifficulty` / `parseQuizQuestions`) -/

inductive Difficulty where
  | easy | medium | hard
  deriving Repr, DecidableEq

/-- `ContentProcessor.mapGradeToDifficulty`. -/
def mapGradeToDifficulty (gradeLevel : GradeLevel) : Difficulty :=
  match gradeComplexity gradeLevel with
  | .elementary => .easy
  | .middle => .medium
  | .high => .hard
  | .college => .hard

/-- `difficulty === 'easy' ? 2 : difficulty === 'medium' ? 3 : 4` in
`parseQuizQuestions`. -/
def basePoints : Difficulty → Nat
  | .easy => 2
  | .medium => 3
  | .hard => 4

structure QuizOption where
  id : String
  text : String
  isCorrect : Bool
  explanation : String
  deriving Repr, DecidableEq

structure QuizQuestion where
  id : String
  question : String
  options : List QuizOption
  correctAnswer : String
  explanation : String
  points : Nat
  category : String
  difficulty : Difficulty
  timeLimit : Nat
  deriving Repr, DecidableEq

/-- `ContentProcessor.parseQuizQuestions`: the AI response is ignored and three
fixed sample questions are produced, the `index`-th having its `index`-th
option correct (option `d` never correct). -/
def parseQuizQuestions (_response : String) (difficulty : Difficulty) : List QuizQuestion :=
  (List.range 3).map (fun index =>
    { id := "question_" ++ toString (index + 1)
      question := "Sample question " ++ toString (index + 1) ++ " based on the content"
      options :=
        [ { id := "a", text := "Option A", isCorrect := index == 0,
            explanation := "Explanation for option A" },
          { id := "b", text := "Option B", isCorrect := index == 1,
            explanation := "Explanation for option B" },
          { id := "c", text := "Option C", isCorrect := index == 2,
            explanation := "Explanation for option C" },
          { id := "d", text := "Option D", isCorrect := false,
            explanation := "Explanation for option D" } ]
      correctAnswer := (["a", "b", "c"].getD index "a")
      explanation := "This is the explanation for question " ++ toString (index + 1)
      points := basePoints difficulty
      category := "comprehension"
      difficulty := difficulty
      timeLimit := 60 })

structure Quiz where
  questions : List QuizQuestion
  totalPoints : Nat
  timeEstimate : Nat
  difficulty : GradeLevel
  deriving Repr, DecidableEq

/-- `ContentProcessor.generateQuiz` minus the external `write` call (modelled
in the pipeline) and the `Date.now()`-derived id/metadata. -/
def generateQuizPure (response : String) (preferences : UserPreferences) : Quiz :=
  let difficulty := mapGradeToDifficulty preferences.gradeLevel
  let questions := parseQuizQuestions response difficulty
  { questions := questions
    totalPoints := (questions.map (fun q => q.points)).sum
    timeEstimate := max 3 (questions.length * 2)
    difficulty := preferences.gradeLevel }

/-! ## Concept extraction and mind map
(`ContentProcessor.extractConcepts` / `generateMindMap`) -/

/-- `word.replace(/[^\w]/g, '')`: keep only `[A-Za-z0-9_]`. -/
def cleanWord (w : String) : String :=
  String.mk (w.toList.filter (fun c => c.isAlphanum ∨ c = '_'))

/-- The `commonWords` stop-word set of `extractConcepts`. -/
def commonWords : List String :=
  ["the", "a", "an", "and", "or", "but", "in", "on", "at", "to", "for", "of",
   "with", "by", "is", "are", "was", "were", "be", "been", "being", "have",
   "has", "had", "do", "does", "did", "will", "would", "could", "should",
   "may", "might", "can", "this", "that", "these", "those"]

/-- Insertion-ordered frequency map update (`wordFreq.set(w, get(w)+1)` on a JS
`Map`, whose iteration order is insertion order). -/
def bumpFreq : List (String × Nat) → String → List (String × Nat)
  | [], w => [(w, 1)]
  | (k, v) :: t, w => if k = w then (k, v + 1) :: t else (k, v) :: bumpFreq t w

/-- The frequency-collection loop of `extractConcepts`: count cleaned words
longer than 3 characters that are not stop words. -/
def collectFreq (words : List String) : List (String × Nat) :=
  words.foldl
    (fun acc word =>
      let cw := cleanWord word
      if cw.length > 3 ∧ ¬ commonWords.contains cw then bumpFreq acc cw else acc)
    []

/-- Stable insertion keeping counts in non-increasing order: the new entry goes
after every existing entry with a count `≥` its own. -/
def insertByCountDesc : List (String × Nat) → String × Nat → List (String × Nat)
  | [], p => [p]
  | q :: l, p => if q.2 < p.2 then p :: q :: l else q :: insertByCountDesc l p

/-- JS `Array.prototype.sort(([,a],[,b]) => b - a)`: a stable sort by count,
descending (ES2019 guarantees stability; ties keep insertion order). -/
def sortByCountDesc (l : List (String × Nat)) : List (String × Nat) :=
  l.foldl insertByCountDesc []

/-- `word.charAt(0).toUpperCase() + word.slice(1)`. -/
def jsCapitalize (w : String) : String :=
  match w.data with
  | [] => w
  | c :: rest => String.mk (c.toUpper :: rest)

/-- `ContentProcessor.extractConcepts`. -/
def extractConcepts (content : String) : List String :=
  let words := jsSplitWS (jsToLower content)
  let freq := collectFreq words
  ((sortByCountDesc freq).take 8).map (fun p => jsCapitalize p.1)

structure MindMapNode where
  id : String
  label : String
  description : String
  level : Nat
  category : String
  importance : Nat
  deriving Repr, DecidableEq

structure MindMapEdge where
  id : String
  sourceId : String
  targetId : String
  relationship : String
  weight : Nat
  edgeType : String
  deriving Repr, DecidableEq

structure MindMap where
  nodes : List MindMapNode
  edges : List MindMapEdge
  rootNodeId : String
  deriving Repr, DecidableEq

def nodeId (i : Nat) : String := "node_" ++ toString i

/-- `concepts.map((concept, index) => ...)` in `generateMindMap`. -/
def mkNodes (i : Nat) : List String → List MindMapNode
  | [] => []
  | c :: rest =>
    { id := nodeId i
      label := c
      description := "Key concept: " ++ c
      level := if i = 0 then 0 else 1
      category := if i = 0 then "main_topic" else "subtopic"
      importance := if i = 0 then 10 else max 5 (10 - i) } :: mkNodes (i + 1) rest

/-- `concepts.slice(1).map((_, index) => ...)` in `generateMindMap`:
edge `index` connects `node_0` to `node_{index+1}`. -/
def mkEdges (j : Nat) : List String → List MindMapEdge
  | [] => []
  | _ :: rest =>
    { id := "edge_" ++ toString j
      sourceId := nodeId 0
      targetId := nodeId (j + 1)
      relationship := "contains"
      weight := 8
      edgeType := "hierarchical" } :: mkEdges (j + 1) rest

/-- `ContentProcessor.generateMindMap` minus the external `write` call (whose
response is parsed nowhere — the structure is built from `extractConcepts`)
and the fixed layout/metadata. -/
def generateMindMapPure (content : String) : MindMap :=
  let concepts := extractConcepts content
  { nodes := mkNodes 0 concepts
    edges := mkEdges 0 (concepts.drop 1)
    rootNodeId := nodeId 0 }

/-! ## Audio lesson (`ContentProcessor.generateAudioLesson` /
`createAudioSegments`) -/

structure AudioSegment where
  id : String
  text : String
  startTime : ℚ
  endTime : ℚ
  isPlaying : Bool
  speed : ℚ
  deriving Repr, DecidableEq

/-- `text.split(/[.!?]+/).filter(s => s.trim().length > 0)`. -/
def sentencesOf (text : String) : List String :=
  ((listSplit (fun c => c = '.' ∨ c = '!' ∨ c = '?') text.data).map String.mk).filter
    (fun s => ¬ (jsTrim s).isEmpty)

/-- `sentences.map((sentence, index) => ...)` in `createAudioSegments`. -/
def mkSegments (i : Nat) (d : ℚ) : List String → List AudioSegment
  | [] => []
  | s :: rest =>
    { id := "segment_" ++ toString i
      text := jsTrim s
      startTime := (i : ℚ) * d
      endTime := ((i : ℚ) + 1) * d
      isPlaying := false
      speed := 1 } :: mkSegments (i + 1) d rest

/-- `ContentProcessor.createAudioSegments`.  Times are exact rationals for the
float expressions `index * segmentDuration` / `(index+1) * segmentDuration`;
with no sentence the division is degenerate but the (empty) map never uses it,
matching the JS code. -/
def createAudioSegments (text : String) (totalDuration : Nat) : List AudioSegment :=
  let sentences := sentencesOf text
  let segmentDuration : ℚ := (totalDuration : ℚ) / (sentences.length : ℚ)
  mkSegments 0 segmentDuration sentences

structure AudioLesson where
  text : String
  duration : Nat
  speed : ℚ
  language : String
  segments : List AudioSegment
  deriving Repr, DecidableEq

/-- `ContentProcessor.generateAudioLesson` (pure: no external call is made by
this stage).  `Math.ceil(words.length / 3)` is `(words.length + 2) / 3` on
naturals. -/
def generateAudioLesson (adaptedText : String) : AudioLesson :=
  let words := jsSplitWS adaptedText
  let estimatedDuration := (words.length + 2) / 3
  { text := adaptedText
    duration := estimatedDuration
    speed := 1
    language := "en"
    segments := createAudioSegments adaptedText estimatedDuration }

/-! ## Summary record (`ContentProcessor.generateSummary` / `extractKeyPoints`) -/

/-- `line.replace(/^[-•]\s*/, '')`: drop one leading marker character and the
whitespace run following it; lines not starting with a marker are unchanged. -/
def stripLeadingMarker (line : String) : String :=
  match line.data with
  | c :: rest =>
    if c = '-' ∨ c = '•' then String.mk (rest.dropWhile Char.isWhitespace) else line
  | [] => line

/-- `line.trim().startsWith(m)` for a one-character marker `m`. -/
def trimStartsWithMarker (line : String) : Bool :=
  match (jsTrim line).data with
  | c :: _ => c = '-' ∨ c = '•'
  | [] => false

/-- `ContentProcessor.extractKeyPoints`. -/
def extractKeyPoints (summaryText : String) : List String :=
  ((((listSplit (fun c => c = '\n') summaryText.data).map String.mk).filter
      trimStartsWithMarker).map
    (fun line => jsTrim (stripLeadingMarker line))).filter
    (fun point => ¬ point.isEmpty)

structure Summary where
  text : String
  keyPoints : List String
  wordCount : Nat
  deriving Repr, DecidableEq

/-- The record built by `generateSummary` from the summarizer's output
(metadata abstracted). -/
def generateSummaryRecord (summaryText : String) : Summary :=
  { text := summaryText
    keyPoints := extractKeyPoints summaryText
    wordCount := (jsSplitWS summaryText).length }

/-- The record built by `adaptContentForGrade` from the rewriter's output. -/
structure AdaptedContent where
  text : String
  originalLength : Nat
  adaptedLength : Nat
  deriving Repr, DecidableEq

/-! ## ChromeAIService capability calls
(`ChromeAIService.summarize` / `rewrite` / `write`, `src/services`)

Each wrapper does `handle = await createX(options)` (which may throw before a
handle exists), then `try { return await handle.transform(...) } finally
{ handle.destroy() }`.  The state counts handle creations and `destroy()`
invocations. -/

structure AIState where
  created : Nat
  destroyed : Nat
  deriving Repr, DecidableEq

/-- One scripted capability call: whether `createX` resolves to a handle, and
the outcome of the single transformation on that handle (a rejection also
covers an abort honoured by the capability layer). -/
structure CallScript where
  createOutcome : Except String Unit
  transformOutcome : Except String String
  deriving Repr

/-- Shared shape of `ChromeAIService.summarize`, `.rewrite` and `.write`:
create a handle, run the transformation, and `destroy()` the handle in a
`finally` on both the resolve and the reject path. -/
def runServiceCall (c : CallScript) (s : AIState) : Except String String × AIState :=
  match c.createOutcome with
  | .error msg => (.error msg, s)
  | .ok _ =>
    let s1 : AIState := { s with created := s.created + 1 }
    let s2 : AIState := { s1 with destroyed := s1.destroyed + 1 }
    (c.transformOutcome, s2)

/-- The four external calls one pipeline run can make, in order: summarize,
rewrite (adapt), write (mind-map prompt), write (quiz prompt). -/
structure Oracle where
  summarizeCall : CallScript
  rewriteCall : CallScript
  writeMindMapCall : CallScript
  writeQuizCall : CallScript
  deriving Repr

/-- An oracle on which every capability call succeeds with the given outputs. -/
def okOracle (summaryText adaptedText mindMapResponse quizResponse : String) : Oracle :=
  { summarizeCall := ⟨.ok (), .ok summaryText⟩
    rewriteCall := ⟨.ok (), .ok adaptedText⟩
    writeMindMapCall := ⟨.ok (), .ok mindMapResponse⟩
    writeQuizCall := ⟨.ok (), .ok quizResponse⟩ }

/-! ## Pipeline (`ContentProcessor.processContent`) -/

inductive ProgressStatus where
  | pending | in_progress | completed | error
  deriving Repr, DecidableEq

structure GenerationProgress where
  step : String
  status : ProgressStatus
  progress : Nat
  message : String
  deriving Repr, DecidableEq

/-- `ProcessingOptions`: `onProgress?` is modelled by whether a callback is
supplied, `signal?` by whether the caller's `AbortSignal` fires, and
`includeValidation?` by an optional Boolean (`none` = field absent). -/
structure ProcessingOptions where
  hasOnProgress : Bool
  signalAborted : Bool
  includeValidation : Option Bool
  deriving Repr, DecidableEq

structure GenStats where
  apiCalls : Nat
  tokensUsed : Nat
  deriving Repr, DecidableEq

structure GeneratedMaterials where
  summary : Summary
  adaptedContent : AdaptedContent
  mindMap : MindMap
  audioLesson : AudioLesson
  quiz : Quiz
  deriving Repr, DecidableEq

structure GenerationResult where
  success : Bool
  materials : Option GeneratedMaterials
  error : Option String
  stats : GenStats
  deriving Repr, DecidableEq

/-- A terminal pipeline outcome together with the emitted progress sequence
and the capability handle accounting. -/
structure RunOutcome where
  result : GenerationResult
  progress : List GenerationProgress
  ai : AIState
  deriving Repr, DecidableEq

/-- `ContentProcessor.updateProgress`: forwards to the callback when one is
supplied, otherwise emits nothing. -/
def emit (cb : Bool) (acc : List GenerationProgress) (step : String)
    (status : ProgressStatus) (pct : Nat) (msg : String) : List GenerationProgress :=
  if cb then acc ++ [⟨step, status, pct, msg⟩] else acc

/-- The `catch` block of `processContent`: a failed run reports the error, no
materials, the statistics accumulated so far, and — when a callback is
supplied — one final `error/error/0` progress entry. -/
def failOutcome (cb : Bool) (acc : List GenerationProgress) (msg : String)
    (apiCalls : Nat) (ai : AIState) : RunOutcome :=
  { result :=
      { success := false
        materials := none
        error := some msg
        stats := { apiCalls := apiCalls, tokensUsed := 0 } }
    progress := emit cb acc "error" ProgressStatus.error 0 msg
    ai := ai }

/-- Steps 2–7 of `processContent` (summarize → adapt → mind map → audio →
quiz → finalize).  `stats.apiCalls` is incremented only after the
corresponding `await` resolves, and the audio stage makes no external call.
The mind-map stage issues its `write` call but builds the structure from the
ORIGINAL `content` (the response string is discarded), exactly as the source
does. -/
def runStages (content : String) (preferences : UserPreferences) (cb : Bool)
    (acc0 : List GenerationProgress) (oracle : Oracle) : RunOutcome :=
  let ai0 : AIState := ⟨0, 0⟩
  let e2 := emit cb acc0 "summarizing" .in_progress 20 "Creating summary..."
  match runServiceCall oracle.summarizeCall ai0 with
  | (.error msg, ai1) => failOutcome cb e2 msg 0 ai1
  | (.ok summaryText, ai1) =>
    let summary := generateSummaryRecord summaryText
    let e3 := emit cb e2 "summarizing" .completed 35 "Summary created"
    let e4 := emit cb e3 "adapting" .in_progress 45 "Adapting content for grade level..."
    match runServiceCall oracle.rewriteCall ai1 with
    | (.error msg, ai2) => failOutcome cb e4 msg 1 ai2
    | (.ok adaptedText, ai2) =>
      let adaptedContent : AdaptedContent :=
        { text := adaptedText
          originalLength := content.length
          adaptedLength := adaptedText.length }
      let e5 := emit cb e4 "adapting" .completed 60 "Content adapted"
      let e6 := emit cb e5 "creating_mindmap" .in_progress 70 "Creating mind map..."
      match runServiceCall oracle.writeMindMapCall ai2 with
      | (.error msg, ai3) => failOutcome cb e6 msg 2 ai3
      | (.ok _mindMapResponse, ai3) =>
        let mindMap := generateMindMapPure content
        let e7 := emit cb e6 "creating_mindmap" .completed 80 "Mind map created"
        let e8 := emit cb e7 "generating_audio" .in_progress 85 "Preparing audio lesson..."
        let audioLesson := generateAudioLesson adaptedContent.text
        let e9 := emit cb e8 "generating_audio" .completed 90 "Audio lesson prepared"
        let e10 := emit cb e9 "creating_quiz" .in_progress 95 "Creating quiz questions..."
        match runServiceCall oracle.writeQuizCall ai3 with
        | (.error msg, ai4) => failOutcome cb e10 msg 3 ai4
        | (.ok quizResponse, ai4) =>
          let quiz := generateQuizPure quizResponse preferences
          let e11 := emit cb e10 "creating_quiz" .completed 98 "Quiz created"
          let e12 := emit cb e11 "finalizing" .in_progress 99 "Finalizing materials..."
          let materials : GeneratedMaterials :=
            { summary := summary
              adaptedContent := adaptedContent
              mindMap := mindMap
              audioLesson := audioLesson
              quiz := quiz }
          let e13 := emit cb e12 "finalizing" .completed 100 "Learning materials ready!"
          { result :=
              { success := true
                materials := some materials
                error := none
                stats := { apiCalls := 4, tokensUsed := 0 } }
            progress := e13
            ai := ai4 }

/-- `ContentProcessor.processContent`.  The source registers a listener
forwarding `options.signal`'s abort into an internal `AbortController`, but no
stage ever consults that controller's signal and no capability call receives
it, so the run does not depend on `opts.signalAborted`. -/
def processContent (content : String) (preferences : UserPreferences)
    (opts : ProcessingOptions) (oracle : Oracle) : RunOutcome :=
  let cb := opts.hasOnProgress
  if opts.includeValidation = some false then
    runStages content preferences cb [] oracle
  else
    let e1 := emit cb [] "validation" .in_progress 5 "Validating content..."
    let v := validate content
    if v.isValid then
      runStages content preferences cb
        (emit cb e1 "validation" .completed 10 "Content validated") oracle
    else
      failOutcome cb e1
        ("Content validation failed: " ++ String.intercalate ", " v.errors) 0 ⟨0, 0⟩

/-! ## Derived values and concrete inputs used across the development -/

/-- The materials bundle a successful run assembles from the three resolved
transformation outputs (summary text `s`, adapted text `a`, quiz response
`q`); the mind-map `write` response never appears because `generateMindMap`
discards it. -/
def okMaterials (content : String) (preferences : UserPreferences)
    (s a q : String) : GeneratedMaterials :=
  { summary := generateSummaryRecord s
    adaptedContent := { text := a, originalLength := content.length, adaptedLength := a.length }
    mindMap := generateMindMapPure content
    audioLesson := generateAudioLesson a
    quiz := generateQuizPure q preferences }

/-- A 89-character, 10-word input that passes validation. -/
def elephantText : String :=
  "elephant elephant elephant elephant elephant elephant elephant elephant elephant elephant"

/-- A rewriter output distinct from the source text, with distinct concepts. -/
def giraffeText : String :=
  "giraffe giraffe giraffe giraffe giraffe giraffe giraffe giraffe giraffe giraffe"

def defaultPrefs : UserPreferences := ⟨.g7, .gaming⟩

/-! ## Claim C2: validation failure is fail-fast -/

/-- C2.  For every input content that fails validation, on any path where
validation is enabled (`includeValidation` absent or `true`), the run makes
zero external-call attempts (`stats.apiCalls = 0`, and indeed no capability
handle is even created), returns no materials, and reports failure. -/
theorem c2_validation_fail_fast (content : String) (preferences : UserPreferences)
    (opts : ProcessingOptions) (oracle : Oracle)
    (henabled : ¬ opts.includeValidation = some false)
    (hinvalid : (validate content).isValid = false) :
    (processContent content preferences opts oracle).result.stats.apiCalls = 0 ∧
    (processContent content preferences opts oracle).result.materials = none ∧
    (processContent content preferences opts oracle).result.success = false ∧
    (processContent content preferences opts oracle).ai.created = 0 := by
  simp [processContent, henabled, hinvalid, failOutcome]

/-- Witness for C2 at the concrete 2-character input `"hi"`. -/
theorem c2_validation_fail_fast_witness :
    (validate "hi").isValid = false ∧
    ((processContent "hi" defaultPrefs ⟨true, false, none⟩
        (okOracle "s" "a" "m" "q")).result.stats.apiCalls = 0 ∧
     (processContent "hi" defaultPrefs ⟨true, false, none⟩
        (okOracle "s" "a" "m" "q")).result.materials = none ∧
     (processContent "hi" defaultPrefs ⟨true, false, none⟩
        (okOracle "s" "a" "m" "q")).result.success = false ∧
     (processContent "hi" defaultPrefs ⟨true, false, none⟩
        (okOracle "s" "a" "m" "q")).ai.created = 0) :=
  ⟨by decide,
   c2_validation_fail_fast "hi" defaultPrefs ⟨true, false, none⟩
     (okOracle "s" "a" "m" "q") (by decide) (by decide)⟩

/-! ## Claim C10: `includeValidation: false` skips validation entirely -/

/-- C10.  With `includeValidation := false` the pipeline never runs the
validator and issues all four external capability calls for ANY input string
(the quantification over `content` includes every string failing validation,
e.g. ones below the 50-character minimum): the run succeeds whenever the
capability calls do, and no `validation` progress step is ever emitted. -/
theorem c10_skip_validation_processes_any_input (content : String)
    (preferences : UserPreferences) (cb ab : Bool) (s a m q : String) :
    (processContent content preferences ⟨cb, ab, some false⟩
        (okOracle s a m q)).result.success = true ∧
    (processContent content preferences ⟨cb, ab, some false⟩
        (okOracle s a m q)).result.stats.apiCalls = 4 ∧
    (processContent content preferences ⟨cb, ab, some false⟩
        (okOracle s a m q)).result.materials.isSome = true ∧
    (processContent content preferences ⟨cb, ab, some false⟩
        (okOracle s a m q)).progress.all (fun p => p.step ≠ "validation") = true := by
  cases cb <;>
    refine ⟨rfl, rfl, rfl, ?_⟩ <;>
    simp [processContent, runStages, okOracle, runServiceCall, emit]

/-! ## Claim C1: cancellation (code bug — the abort signal is never consulted) -/

/-- C1 (code bug).  `processContent` registers a listener forwarding the
caller's `AbortSignal` into `this.abortController`, but no code ever reads
`this.abortController.signal` and no capability call receives a signal, so a
cancelled token changes nothing: the run result is independent of the abort
flag, and a run whose token is already cancelled still performs all four
external calls and returns `success = true` with materials — contradicting
the claimed `success=false` / `AbortedError` / `externalCallCount == k` / no
materials. -/
theorem c1_cancellation_has_no_effect :
    (∀ (content : String) (preferences : UserPreferences) (cb : Bool)
        (v : Option Bool) (oracle : Oracle),
      processContent content preferences ⟨cb, true, v⟩ oracle =
        processContent content preferences ⟨cb, false, v⟩ oracle) ∧
    ((processContent elephantText defaultPrefs ⟨true, true, none⟩
        (okOracle "s" giraffeText "m" "q")).result.success = true ∧
     (processContent elephantText defaultPrefs ⟨true, true, none⟩
        (okOracle "s" giraffeText "m" "q")).result.stats.apiCalls = 4 ∧
     (processContent elephantText defaultPrefs ⟨true, true, none⟩
        (okOracle "s" giraffeText "m" "q")).result.materials.isSome = true ∧
     (processContent elephantText defaultPrefs ⟨true, true, none⟩
        (okOracle "s" giraffeText "m" "q")).result.error = none) := by
  refine ⟨fun content preferences cb v oracle => ?_, rfl, rfl, rfl, rfl⟩
  simp [processContent]

/-! ## Claim C8: every created capability handle is destroyed exactly once -/

/-- `runServiceCall` preserves the handle-accounting balance: a call either
creates no handle and destroys nothing, or creates one handle and destroys it
once in its `finally`, on the resolve path and on the reject path alike. -/
theorem runServiceCall_balance (c : CallScript) (s : AIState)
    (h : s.destroyed = s.created) :
    (runServiceCall c s).2.destroyed = (runServiceCall c s).2.created := by
  rcases c with ⟨co, t⟩
  cases co <;> simp [runServiceCall, h]

/-- C8.  For every run (any content, options, and any pattern of capability
successes, rejections, or aborts), the number of `destroy()` invocations
equals the number of capability handles created: each handle is released
exactly once on every exit path. -/
theorem c8_every_handle_destroyed_once (content : String)
    (preferences : UserPreferences) (opts : ProcessingOptions) (oracle : Oracle) :
    (processContent content preferences opts oracle).ai.destroyed =
      (processContent content preferences opts oracle).ai.created := by
  rcases oracle with ⟨⟨c1, t1⟩, ⟨c2, t2⟩, ⟨c3, t3⟩, ⟨c4, t4⟩⟩
  by_cases hv : opts.includeValidation = some false <;>
    by_cases hval : (validate content).isValid <;>
      cases c1 <;> cases t1 <;> cases c2 <;> cases t2 <;> cases c3 <;> cases t3 <;>
        cases c4 <;> cases t4 <;>
        simp [processContent, runStages, runServiceCall, failOutcome, hv, hval]

/-! ## Inversion: the shape of successful runs -/

/-- A successful `runStages` returns exactly the bundle `okMaterials` built
from its three used transformation outputs. -/
theorem runStages_success_materials (content : String) (preferences : UserPreferences)
    (cb : Bool) (acc : List GenerationProgress) (oracle : Oracle)
    (h : (runStages content preferences cb acc oracle).result.success = true) :
    ∃ s a q, (runStages content preferences cb acc oracle).result.materials =
      some (okMaterials content preferences s a q) := by
  rcases oracle with ⟨⟨c1, t1⟩, ⟨c2, t2⟩, ⟨c3, t3⟩, ⟨c4, t4⟩⟩
  cases c1 <;> cases t1 <;> cases c2 <;> cases t2 <;> cases c3 <;> cases t3 <;>
    cases c4 <;> cases t4 <;>
    first
      | exact ⟨_, _, _, rfl⟩
      | simp [runStages, runServiceCall, failOutcome] at h

/-- A successful `processContent` returns exactly an `okMaterials` bundle. -/
theorem success_materials (content : String) (preferences : UserPreferences)
    (opts : ProcessingOptions) (oracle : Oracle)
    (h : (processContent content preferences opts oracle).result.success = true) :
    ∃ s a q, (processContent content preferences opts oracle).result.materials =
      some (okMaterials content preferences s a q) := by
  by_cases hv : opts.includeValidation = some false
  · simp only [processContent, if_pos hv] at h ⊢
    exact runStages_success_materials _ _ _ _ _ h
  · by_cases hval : (validate content).isValid
    · simp only [processContent, if_neg hv, hval, if_true] at h ⊢
      exact runStages_success_materials _ _ _ _ _ h
    · simp only [Bool.not_eq_true] at hval
      simp [processContent, if_neg hv, hval, failOutcome] at h

/-! ## Claim C4: quiz shape and difficulty table -/

/-- The questions produced by `parseQuizQuestions`: always exactly three, each
with four options of which exactly one is marked correct, all carrying the
given difficulty and its point value. -/
theorem parseQuizQuestions_shape (response : String) (d : Difficulty) :
    (parseQuizQuestions response d).length = 3 ∧
    ∀ q0 ∈ parseQuizQuestions response d,
      q0.options.length = 4 ∧
      q0.options.countP (fun o => o.isCorrect) = 1 ∧
      q0.difficulty = d ∧
      q0.points = basePoints d := by
  refine ⟨rfl, ?_⟩
  intro q0 hq0
  simp only [parseQuizQuestions, List.range, List.range.loop, List.map_cons,
    List.map_nil, List.mem_cons, List.not_mem_nil, or_false] at hq0
  rcases hq0 with h | h | h <;> subst h <;> exact ⟨rfl, rfl, rfl, rfl⟩

/-- C4.  In every successful run the generated quiz contains exactly 3
questions, each with 4 options (within the claimed 3–4) of which exactly one
is marked correct; difficulty and per-question points are the pure function
of the grade complexity bucket given by the claimed table. -/
theorem c4_quiz_shape_and_difficulty (content : String) (preferences : UserPreferences)
    (opts : ProcessingOptions) (oracle : Oracle) (m : GeneratedMaterials)
    (hs : (processContent content preferences opts oracle).result.success = true)
    (hm : (processContent content preferences opts oracle).result.materials = some m) :
    (m.quiz.questions.length = 3 ∧
     ∀ q0 ∈ m.quiz.questions,
       q0.options.length = 4 ∧
       q0.options.countP (fun o => o.isCorrect) = 1 ∧
       q0.difficulty = mapGradeToDifficulty preferences.gradeLevel ∧
       q0.points = basePoints (mapGradeToDifficulty preferences.gradeLevel)) ∧
    (mapGradeToDifficulty .g2 = .easy ∧ basePoints .easy = 2) ∧
    (mapGradeToDifficulty .g7 = .medium ∧ basePoints .medium = 3) ∧
    (mapGradeToDifficulty .g11 = .hard ∧ mapGradeToDifficulty .undergrad = .hard ∧
      basePoints .hard = 4) := by
  obtain ⟨s, a, q, hmat⟩ := success_materials content preferences opts oracle hs
  rw [hm] at hmat
  obtain rfl : m = okMaterials content preferences s a q := by
    injection hmat
  exact ⟨parseQuizQuestions_shape q (mapGradeToDifficulty preferences.gradeLevel),
    ⟨rfl, rfl⟩, ⟨rfl, rfl⟩, rfl, rfl, rfl⟩

/-- Witness for C4 on a concrete successful run (grade 7 → medium / 3 pts). -/
theorem c4_quiz_shape_and_difficulty_witness :
    (processContent "hi" defaultPrefs ⟨false, false, some false⟩
        (okOracle "s" "a" "m" "q")).result.success = true ∧
    ((okMaterials "hi" defaultPrefs "s" "a" "q").quiz.questions.length = 3 ∧
     ∀ q0 ∈ (okMaterials "hi" defaultPrefs "s" "a" "q").quiz.questions,
       q0.options.length = 4 ∧
       q0.options.countP (fun o => o.isCorrect) = 1 ∧
       q0.difficulty = mapGradeToDifficulty defaultPrefs.gradeLevel ∧
       q0.points = basePoints (mapGradeToDifficulty defaultPrefs.gradeLevel)) :=
  ⟨rfl,
   ((c4_quiz_shape_and_difficulty "hi" defaultPrefs ⟨false, false, some false⟩
      (okOracle "s" "a" "m" "q") (okMaterials "hi" defaultPrefs "s" "a" "q")
      rfl rfl).1)⟩

/-! ## Progress characterization -/

/-- The twelve progress entries a successful stage sequence emits (percent
checkpoints 20, 35, 45, 60, 70, 80, 85, 90, 95, 98, 99, 100). -/
def successStageEntries : List GenerationProgress :=
  [⟨"summarizing", .in_progress, 20, "Creating summary..."⟩,
   ⟨"summarizing", .completed, 35, "Summary created"⟩,
   ⟨"adapting", .in_progress, 45, "Adapting content for grade level..."⟩,
   ⟨"adapting", .completed, 60, "Content adapted"⟩,
   ⟨"creating_mindmap", .in_progress, 70, "Creating mind map..."⟩,
   ⟨"creating_mindmap", .completed, 80, "Mind map created"⟩,
   ⟨"generating_audio", .in_progress, 85, "Preparing audio lesson..."⟩,
   ⟨"generating_audio", .completed, 90, "Audio lesson prepared"⟩,
   ⟨"creating_quiz", .in_progress, 95, "Creating quiz questions..."⟩,
   ⟨"creating_quiz", .completed, 98, "Quiz created"⟩,
   ⟨"finalizing", .in_progress, 99, "Finalizing materials..."⟩,
   ⟨"finalizing", .completed, 100, "Learning materials ready!"⟩]

/-- The two validation-step entries (percent checkpoints 5 and 10). -/
def validationEntries : List GenerationProgress :=
  [⟨"validation", .in_progress, 5, "Validating content..."⟩,
   ⟨"validation", .completed, 10, "Content validated"⟩]

/-- A successful stage sequence appends exactly `successStageEntries` to the
entries accumulated so far (nothing when no callback is supplied). -/
theorem runStages_success_progress (content : String) (preferences : UserPreferences)
    (cb : Bool) (acc : List GenerationProgress) (oracle : Oracle)
    (h : (runStages content preferences cb acc oracle).result.success = true) :
    (runStages content preferences cb acc oracle).progress =
      acc ++ (if cb then successStageEntries else []) := by
  rcases oracle with ⟨⟨c1, t1⟩, ⟨c2, t2⟩, ⟨c3, t3⟩, ⟨c4, t4⟩⟩
  cases c1 <;> cases t1 <;> cases c2 <;> cases t2 <;> cases c3 <;> cases t3 <;>
    cases c4 <;> cases t4 <;>
    first
      | (cases cb <;> simp [runStages, runServiceCall, emit, successStageEntries] <;> done)
      | simp [runStages, runServiceCall, failOutcome] at h

/-- The full progress sequence of a successful run. -/
theorem success_progress (content : String) (preferences : UserPreferences)
    (opts : ProcessingOptions) (oracle : Oracle)
    (h : (processContent content preferences opts oracle).result.success = true) :
    (processContent content preferences opts oracle).progress =
      if opts.hasOnProgress then
        (if opts.includeValidation = some false then successStageEntries
         else validationEntries ++ successStageEntries)
      else [] := by
  by_cases hv : opts.includeValidation = some false
  · simp only [processContent, if_pos hv] at h ⊢
    rw [runStages_success_progress _ _ _ _ _ h]
    cases hcb : opts.hasOnProgress <;> simp [hv, hcb]
  · by_cases hval : (validate content).isValid
    · simp only [processContent, if_neg hv, hval, if_true] at h ⊢
      rw [runStages_success_progress _ _ _ _ _ h]
      cases hcb : opts.hasOnProgress <;> simp [emit, hv, hcb, validationEntries]
    · simp only [Bool.not_eq_true] at hval
      simp [processContent, if_neg hv, hval, failOutcome] at h

/-! ## Claim C5: progress percent values are non-decreasing and end at 100 -/

/-- C5.  For every successful run, the emitted `percent` values form a
non-decreasing sequence, and when a callback is supplied the final emitted
value is 100. -/
theorem c5_progress_monotone (content : String) (preferences : UserPreferences)
    (opts : ProcessingOptions) (oracle : Oracle)
    (h : (processContent content preferences opts oracle).result.success = true) :
    List.Chain' (fun x y => x ≤ y)
      ((processContent content preferences opts oracle).progress.map
        (fun p => p.progress)) ∧
    (opts.hasOnProgress = true →
      ((processContent content preferences opts oracle).progress.map
        (fun p => p.progress)).getLast? = some 100) := by
  rw [success_progress content preferences opts oracle h]
  by_cases hv : opts.includeValidation = some false <;>
    cases hcb : opts.hasOnProgress <;>
      simp [hv, hcb, successStageEntries, validationEntries]

/-- Witness for C5 on a concrete successful run with a callback. -/
theorem c5_progress_monotone_witness :
    (processContent elephantText defaultPrefs ⟨true, false, none⟩
        (okOracle "s" giraffeText "m" "q")).result.success = true ∧
    (List.Chain' (fun x y => x ≤ y)
      ((processContent elephantText defaultPrefs ⟨true, false, none⟩
          (okOracle "s" giraffeText "m" "q")).progress.map (fun p => p.progress)) ∧
     ((true : Bool) = true →
      ((processContent elephantText defaultPrefs ⟨true, false, none⟩
          (okOracle "s" giraffeText "m" "q")).progress.map
        (fun p => p.progress)).getLast? = some 100)) :=
  ⟨rfl, c5_progress_monotone elephantText defaultPrefs ⟨true, false, none⟩
    (okOracle "s" giraffeText "m" "q") rfl⟩

/-! ## Claim C9: failed runs emit a final error entry with percent 0 -/

/-- A failed stage sequence ends by emitting the catch-block error entry. -/
theorem runStages_failure_progress (content : String) (preferences : UserPreferences)
    (cb : Bool) (acc : List GenerationProgress) (oracle : Oracle)
    (h : (runStages content preferences cb acc oracle).result.success = false) :
    ∃ acc2 msg, (runStages content preferences cb acc oracle).progress =
      emit cb acc2 "error" ProgressStatus.error 0 msg := by
  rcases oracle with ⟨⟨c1, t1⟩, ⟨c2, t2⟩, ⟨c3, t3⟩, ⟨c4, t4⟩⟩
  cases c1 <;> cases t1 <;> cases c2 <;> cases t2 <;> cases c3 <;> cases t3 <;>
    cases c4 <;> cases t4 <;>
    first
      | exact ⟨_, _, rfl⟩
      | simp [runStages, runServiceCall] at h

/-- Every failed run's progress list is some accumulated prefix followed by
the catch-block error entry. -/
theorem failure_progress (content : String) (preferences : UserPreferences)
    (opts : ProcessingOptions) (oracle : Oracle)
    (h : (processContent content preferences opts oracle).result.success = false) :
    ∃ acc msg, (processContent content preferences opts oracle).progress =
      emit opts.hasOnProgress acc "error" ProgressStatus.error 0 msg := by
  by_cases hv : opts.includeValidation = some false
  · simp only [processContent, if_pos hv] at h ⊢
    exact runStages_failure_progress _ _ _ _ _ h
  · by_cases hval : (validate content).isValid
    · simp only [processContent, if_neg hv, hval, if_true] at h ⊢
      exact runStages_failure_progress _ _ _ _ _ h
    · simp only [Bool.not_eq_true] at hval
      simp only [processContent, if_neg hv, hval, Bool.false_eq_true, if_false,
        failOutcome]
      exact ⟨_, _, rfl⟩

/-- Appending a single element determines `getLast?`. -/
theorem getLast?_append_single {α : Type} : ∀ (l : List α) (a : α),
    (l ++ [a]).getLast? = some a
  | [], _ => rfl
  | b :: t, a => by
    rw [List.cons_append]
    cases t with
    | nil => rfl
    | cons c t2 =>
      rw [List.cons_append, List.getLast?_cons_cons, ← List.cons_append]
      exact getLast?_append_single (c :: t2) a

/-- In a non-decreasing list every element is bounded by the last one. -/
theorem chain'_le_getLast : ∀ (l : List Nat) (a : Nat),
    List.Chain' (fun x y => x ≤ y) l → l.getLast? = some a → ∀ x ∈ l, x ≤ a := by
  intro l
  induction l with
  | nil => intro a _ _ x hx; simp at hx
  | cons b t ih =>
    intro a hc hl x hx
    cases t with
    | nil =>
      simp only [List.getLast?_singleton, Option.some_inj] at hl
      simp only [List.mem_singleton] at hx
      omega
    | cons c t2 =>
      rw [List.getLast?_cons_cons] at hl
      rw [List.chain'_cons] at hc
      rcases List.mem_cons.mp hx with rfl | hx2
      · exact le_trans hc.1 (ih a hc.2 hl c (List.mem_cons_self c t2))
      · exact ih a hc.2 hl x hx2

/-- C9.  Whenever a progress callback is supplied and the run fails (for any
reason, validation failure included), the final emitted entry has step
`error`, status `error`, and percent 0; consequently the percent sequence of
any failed run that emitted a positive percent is not non-decreasing. -/
theorem c9_failed_run_emits_error_entry (content : String)
    (preferences : UserPreferences) (opts : ProcessingOptions) (oracle : Oracle)
    (hcb : opts.hasOnProgress = true)
    (h : (processContent content preferences opts oracle).result.success = false) :
    (∃ msg, (processContent content preferences opts oracle).progress.getLast? =
        some ⟨"error", ProgressStatus.error, 0, msg⟩) ∧
    ((∃ p ∈ (processContent content preferences opts oracle).progress, 0 < p.progress) →
      ¬ List.Chain' (fun x y => x ≤ y)
        ((processContent content preferences opts oracle).progress.map
          (fun p => p.progress))) := by
  obtain ⟨acc, msg, hprog⟩ := failure_progress content preferences opts oracle h
  rw [hcb] at hprog
  rw [hprog]
  simp only [emit, if_true]
  constructor
  · exact ⟨msg, getLast?_append_single acc _⟩
  · rintro ⟨p, hp, hppos⟩ hchain
    have hmap : (acc ++ [(⟨"error", ProgressStatus.error, 0, msg⟩ : GenerationProgress)]).map
        (fun p => p.progress) = acc.map (fun p => p.progress) ++ [0] := by
      simp
    rw [hmap] at hchain
    have hle := chain'_le_getLast _ 0 hchain (getLast?_append_single _ 0) p.progress
    have hmem : p.progress ∈ acc.map (fun p => p.progress) ++ [0] := by
      rcases List.mem_append.mp hp with hpa | hpe
      · exact List.mem_append.mpr (Or.inl (List.mem_map_of_mem _ hpa))
      · simp only [List.mem_singleton] at hpe
        subst hpe
        simp
    have := hle hmem
    omega

/-- Witness for C9 on a concrete failing run (validation failure at `"hi"`
with a callback): the entry before the error entry carries percent 5 > 0. -/
theorem c9_failed_run_emits_error_entry_witness :
    (processContent "hi" defaultPrefs ⟨true, false, none⟩
        (okOracle "s" "a" "m" "q")).result.success = false ∧
    ((∃ msg, (processContent "hi" defaultPrefs ⟨true, false, none⟩
        (okOracle "s" "a" "m" "q")).progress.getLast? =
        some ⟨"error", ProgressStatus.error, 0, msg⟩) ∧
     ((∃ p ∈ (processContent "hi" defaultPrefs ⟨true, false, none⟩
          (okOracle "s" "a" "m" "q")).progress, 0 < p.progress) →
      ¬ List.Chain' (fun x y => x ≤ y)
        ((processContent "hi" defaultPrefs ⟨true, false, none⟩
            (okOracle "s" "a" "m" "q")).progress.map (fun p => p.progress)))) :=
  ⟨rfl, c9_failed_run_emits_error_entry "hi" defaultPrefs ⟨true, false, none⟩
    (okOracle "s" "a" "m" "q") rfl rfl⟩

/-! ## Mind-map structural lemmas -/

theorem mkNodes_labels : ∀ (l : List String) (i : Nat),
    (mkNodes i l).map (fun nd => nd.label) = l
  | [], _ => rfl
  | c :: rest, i => by simp [mkNodes, mkNodes_labels rest (i + 1)]

theorem mkNodes_length : ∀ (l : List String) (i : Nat), (mkNodes i l).length = l.length
  | [], _ => rfl
  | _ :: rest, i => by simp [mkNodes, mkNodes_length rest (i + 1)]

/-- The importance score attached to the node at overall index `k`. -/
def nodeImportance (k : Nat) : Nat := if k = 0 then 10 else max 5 (10 - k)

theorem mkNodes_get_importance : ∀ (l : List String) (i j : Nat)
    (h : j < (mkNodes i l).length),
    ((mkNodes i l).get ⟨j, h⟩).importance = nodeImportance (i + j) := by
  intro l
  induction l with
  | nil => intro i j h; simp [mkNodes] at h
  | cons c rest ih =>
    intro i j h
    cases j with
    | zero =>
      show (if i = 0 then 10 else max 5 (10 - i)) = nodeImportance (i + 0)
      rw [Nat.add_zero]
      rfl
    | succ j2 =>
      show ((mkNodes (i + 1) rest).get ⟨j2, _⟩).importance = nodeImportance (i + (j2 + 1))
      rw [ih (i + 1) j2]
      congr 1
      omega

theorem nodeImportance_antitone (i j : Nat) (hij : i ≤ j) :
    nodeImportance j ≤ nodeImportance i := by
  simp only [nodeImportance, Nat.max_def]
  split_ifs <;> omega

theorem mkEdges_source : ∀ (l : List String) (j : Nat),
    ∀ e ∈ mkEdges j l, e.sourceId = nodeId 0 := by
  intro l
  induction l with
  | nil => intro j e he; simp [mkEdges] at he
  | cons c rest ih =>
    intro j e he
    simp only [mkEdges, List.mem_cons] at he
    rcases he with rfl | h2
    · rfl
    · exact ih (j + 1) e h2

theorem extractConcepts_length_le (content : String) :
    (extractConcepts content).length ≤ 8 := by
  simp only [extractConcepts, List.length_map, List.length_take]
  exact Nat.min_le_left _ _

/-! ## Stable sort by frequency: sortedness -/

theorem insertByCountDesc_head (acc : List (String × Nat)) (p : String × Nat) :
    ∃ hd tl, insertByCountDesc acc p = hd :: tl ∧ (hd = p ∨ acc.head? = some hd) := by
  cases acc with
  | nil => exact ⟨p, [], rfl, Or.inl rfl⟩
  | cons q l =>
    by_cases hq : q.2 < p.2
    · refine ⟨p, q :: l, ?_, Or.inl rfl⟩
      simp [insertByCountDesc, hq]
    · refine ⟨q, insertByCountDesc l p, ?_, Or.inr rfl⟩
      simp [insertByCountDesc, hq]

theorem insertByCountDesc_sorted : ∀ (acc : List (String × Nat)) (p : String × Nat),
    List.Chain' (fun x y => y.2 ≤ x.2) acc →
    List.Chain' (fun x y => y.2 ≤ x.2) (insertByCountDesc acc p) := by
  intro acc
  induction acc with
  | nil => intro p _; simp [insertByCountDesc]
  | cons q l ih =>
    intro p h
    by_cases hq : q.2 < p.2
    · simp only [insertByCountDesc, if_pos hq]
      rw [List.chain'_cons]
      exact ⟨by omega, h⟩
    · simp only [insertByCountDesc, if_neg hq]
      rw [List.chain'_cons']
      refine ⟨?_, ih p h.tail⟩
      intro y hy
      obtain ⟨hd, tl, heq, hcase⟩ := insertByCountDesc_head l p
      rw [heq] at hy
      simp only [List.head?_cons, Option.mem_def, Option.some_inj] at hy
      subst hy
      rcases hcase with rfl | hhd
      · omega
      · rcases l with _ | ⟨r, l2⟩
        · simp at hhd
        · simp only [List.head?_cons, Option.some_inj] at hhd
          subst hhd
          exact (List.chain'_cons.mp h).1

theorem sortByCountDesc_sorted (l : List (String × Nat)) :
    List.Chain' (fun x y => y.2 ≤ x.2) (sortByCountDesc l) := by
  have main : ∀ (l2 acc : List (String × Nat)),
      List.Chain' (fun x y => y.2 ≤ x.2) acc →
      List.Chain' (fun x y => y.2 ≤ x.2) (List.foldl insertByCountDesc acc l2) := by
    intro l2
    induction l2 with
    | nil => intro acc h; exact h
    | cons p t ih => intro acc h; exact ih _ (insertByCountDesc_sorted acc p h)
  exact main l [] (by simp)

/-! ## Claim C3: the concept map is computed from the ORIGINAL content -/

/-- C3 counterexample.  The claim as stated — in every successful run the
concept-map candidates are extracted from the ADAPTED text — is false: with
source text about elephants whose rewrite is about giraffes, the produced
node labels are `["Elephant"]`, not the `["Giraffe"]` the adapted text yields
(the source passes `content`, not `adaptedContent.text`, to
`generateMindMap`). -/
theorem c3_counterexample :
    ¬ (∀ (content : String) (preferences : UserPreferences)
        (opts : ProcessingOptions) (oracle : Oracle) (m : GeneratedMaterials),
        (processContent content preferences opts oracle).result.success = true →
        (processContent content preferences opts oracle).result.materials = some m →
        m.mindMap.nodes.map (fun nd => nd.label) =
          extractConcepts m.adaptedContent.text) := by
  intro hclaim
  have h := hclaim elephantText defaultPrefs ⟨false, false, none⟩
    (okOracle "s" giraffeText "m" "q")
    (okMaterials elephantText defaultPrefs "s" giraffeText "q") rfl rfl
  exact absurd h (by decide)

/-- C3 (amended).  In every successful run the concept map is computed from
the ORIGINAL input content: node labels are exactly `extractConcepts content`
(cleaned tokens longer than 3 characters, stop words discarded, ranked by
frequency — the ranking is genuinely sorted non-increasingly — top 8,
capitalized); the topology is a star (every edge leaves the root) and
importance is non-increasing with rank. -/
theorem c3_concept_map_from_original_content (content : String)
    (preferences : UserPreferences) (opts : ProcessingOptions) (oracle : Oracle)
    (m : GeneratedMaterials)
    (hs : (processContent content preferences opts oracle).result.success = true)
    (hm : (processContent content preferences opts oracle).result.materials = some m) :
    m.mindMap = generateMindMapPure content ∧
    m.mindMap.nodes.map (fun nd => nd.label) = extractConcepts content ∧
    (extractConcepts content).length ≤ 8 ∧
    List.Chain' (fun x y => y.2 ≤ x.2)
      (sortByCountDesc (collectFreq (jsSplitWS (jsToLower content)))) ∧
    (∀ e ∈ m.mindMap.edges, e.sourceId = m.mindMap.rootNodeId) ∧
    (∀ i j (h1 : i ≤ j) (h2 : j < m.mindMap.nodes.length),
      (m.mindMap.nodes.get ⟨j, h2⟩).importance ≤
        (m.mindMap.nodes.get ⟨i, Nat.lt_of_le_of_lt h1 h2⟩).importance) := by
  obtain ⟨s, a, q, hmat⟩ := success_materials content preferences opts oracle hs
  rw [hm] at hmat
  obtain rfl : m = okMaterials content preferences s a q := by injection hmat
  refine ⟨rfl, mkNodes_labels _ 0, extractConcepts_length_le content,
    sortByCountDesc_sorted _, ?_, ?_⟩
  · intro e he
    exact mkEdges_source _ 0 e he
  · simp only [okMaterials, generateMindMapPure]
    intro i j h1 h2
    rw [mkNodes_get_importance (extractConcepts content) 0 j h2,
      mkNodes_get_importance (extractConcepts content) 0 i (Nat.lt_of_le_of_lt h1 h2)]
    exact nodeImportance_antitone _ _ (by omega)

/-- Witness for the amended C3 at a concrete successful run where the
adapted text differs from the source content. -/
theorem c3_concept_map_from_original_content_witness :
    (processContent elephantText defaultPrefs ⟨false, false, none⟩
        (okOracle "s" giraffeText "m" "q")).result.success = true ∧
    (processContent elephantText defaultPrefs ⟨false, false, none⟩
        (okOracle "s" giraffeText "m" "q")).result.materials =
      some (okMaterials elephantText defaultPrefs "s" giraffeText "q") ∧
    (okMaterials elephantText defaultPrefs "s" giraffeText "q").mindMap.nodes.map
      (fun nd => nd.label) = extractConcepts elephantText :=
  ⟨rfl, rfl,
   (c3_concept_map_from_original_content elephantText defaultPrefs
      ⟨false, false, none⟩ (okOracle "s" giraffeText "m" "q")
      (okMaterials elephantText defaultPrefs "s" giraffeText "q") rfl rfl).2.1⟩

/-! ## Node/edge identifier bookkeeping for the tree invariant -/

/-- `node_i` identifiers are distinct for the at most nine indices a map can
use (`extractConcepts` keeps at most 8 concepts). -/
theorem nodeId_inj9 : ∀ i < 9, ∀ j < 9, nodeId i = nodeId j → i = j := by decide

theorem mkNodes_mem_id : ∀ (l : List String) (i : Nat) (nd : MindMapNode),
    nd ∈ mkNodes i l → ∃ k, k < l.length ∧ nd.id = nodeId (i + k) := by
  intro l
  induction l with
  | nil => intro i nd h; simp [mkNodes] at h
  | cons c rest ih =>
    intro i nd h
    simp only [mkNodes, List.mem_cons] at h
    rcases h with rfl | h2
    · exact ⟨0, by simp, by simp⟩
    · obtain ⟨k, hk, hid⟩ := ih (i + 1) nd h2
      refine ⟨k + 1, by simp; omega, ?_⟩
      rw [hid]
      congr 1
      omega

theorem mkEdges_mem_target : ∀ (l : List String) (j : Nat) (e : MindMapEdge),
    e ∈ mkEdges j l → ∃ k, k < l.length ∧ e.targetId = nodeId (j + k + 1) := by
  intro l
  induction l with
  | nil => intro j e h; simp [mkEdges] at h
  | cons c rest ih =>
    intro j e h
    simp only [mkEdges, List.mem_cons] at h
    rcases h with rfl | h2
    · exact ⟨0, by simp, rfl⟩
    · obtain ⟨k, hk, ht⟩ := ih (j + 1) e h2
      refine ⟨k + 1, by simp; omega, ?_⟩
      rw [ht]
      congr 1
      omega

theorem mkEdges_target_exists : ∀ (l : List String) (j k : Nat), k < l.length →
    ∃ e ∈ mkEdges j l, e.targetId = nodeId (j + k + 1) := by
  intro l
  induction l with
  | nil => intro j k hk; simp at hk
  | cons c rest ih =>
    intro j k hk
    cases k with
    | zero => exact ⟨_, List.mem_cons_self _ _, rfl⟩
    | succ k2 =>
      obtain ⟨e, he, ht⟩ := ih (j + 1) k2 (by simp at hk; omega)
      refine ⟨e, List.mem_cons_of_mem _ he, ?_⟩
      rw [ht]
      congr 1
      omega

/-- Each used target identifier is hit by exactly one edge (indices stay
below 9, where `node_i` names are distinct). -/
theorem mkEdges_countP_target : ∀ (l : List String) (j k : Nat), k < l.length →
    j + l.length ≤ 8 →
    (mkEdges j l).countP (fun e => decide (e.targetId = nodeId (j + k + 1))) = 1 := by
  intro l
  induction l with
  | nil => intro j k hk _; simp at hk
  | cons c rest ih =>
    intro j k hk hbound
    simp only [List.length_cons] at hbound
    simp only [mkEdges, List.countP_cons]
    cases k with
    | zero =>
      simp only [Nat.add_zero]
      have htail : (mkEdges (j + 1) rest).countP
          (fun e => decide (e.targetId = nodeId (j + 1))) = 0 := by
        rw [List.countP_eq_zero]
        intro e he
        obtain ⟨k2, hk2, ht⟩ := mkEdges_mem_target rest (j + 1) e he
        simp only [decide_eq_true_eq]
        intro heq
        rw [ht] at heq
        have := nodeId_inj9 (j + 1 + k2 + 1) (by omega) (j + 1) (by omega) heq
        omega
      rw [htail]
      simp
    | succ k2 =>
      have hk2 : k2 < rest.length := by
        simp only [List.length_cons] at hk
        omega
      have hidx : j + (k2 + 1) + 1 = j + 1 + k2 + 1 := by omega
      simp only [hidx]
      rw [ih (j + 1) k2 hk2 (by omega)]
      have hhead : ¬ (nodeId (j + 1) = nodeId (j + 1 + k2 + 1)) := by
        intro heq
        have := nodeId_inj9 (j + 1) (by omega) (j + 1 + k2 + 1) (by omega) heq
        omega
      simp [hhead]

/-! ## Claim C6: concept-map tree invariant -/

/-- C6 counterexample.  The claim as stated — for ANY non-empty text the map
has exactly one node with no incoming edge, every other node reachable from
the root by exactly one root-sourced edge — is false: for the non-empty text
`"the the the the"` every token is discarded (stop word / length ≤ 3), so the
map has NO nodes at all (and its `rootNodeId` names a non-existent node). -/
theorem c6_counterexample :
    ¬ (∀ text : String, text ≠ "" →
        ((generateMindMapPure text).nodes.countP
            (fun nd => (generateMindMapPure text).edges.all
              (fun e => e.targetId ≠ nd.id)) = 1 ∧
         ∀ nd ∈ (generateMindMapPure text).nodes,
           nd.id ≠ (generateMindMapPure text).rootNodeId →
             (generateMindMapPure text).edges.countP
               (fun e => e.targetId = nd.id) = 1 ∧
             ∀ e ∈ (generateMindMapPure text).edges, e.targetId = nd.id →
               e.sourceId = (generateMindMapPure text).rootNodeId)) := by
  intro h
  have h2 := (h "the the the the" (by decide)).1
  exact absurd h2 (by decide)

/-- C6 (amended).  For any text from which at least one concept is extracted,
the concept map is a tree (a star): the first node is the designated root
`rootNodeId`; no edge targets the root; exactly one node has no incoming
edge; every non-root node is the target of exactly one edge; and every edge
leaves the root. -/
theorem c6_tree_invariant (text : String) (hne : extractConcepts text ≠ []) :
    (∃ r, (generateMindMapPure text).nodes.head? = some r ∧
       r.id = (generateMindMapPure text).rootNodeId) ∧
    (∀ e ∈ (generateMindMapPure text).edges,
       e.targetId ≠ (generateMindMapPure text).rootNodeId) ∧
    (generateMindMapPure text).nodes.countP
      (fun nd => (generateMindMapPure text).edges.all
        (fun e => e.targetId ≠ nd.id)) = 1 ∧
    (∀ nd ∈ (generateMindMapPure text).nodes,
       nd.id ≠ (generateMindMapPure text).rootNodeId →
         (generateMindMapPure text).edges.countP
           (fun e => e.targetId = nd.id) = 1) ∧
    (∀ e ∈ (generateMindMapPure text).edges,
       e.sourceId = (generateMindMapPure text).rootNodeId) := by
  rcases hE : extractConcepts text with _ | ⟨c, rest⟩
  · exact absurd hE hne
  have hlen : rest.length ≤ 7 := by
    have h8 := extractConcepts_length_le text
    rw [hE] at h8
    simp only [List.length_cons] at h8
    omega
  simp only [generateMindMapPure, hE, List.drop_succ_cons, List.drop_zero]
  refine ⟨?_, ?_, ?_, ?_, ?_⟩
  · exact ⟨_, rfl, rfl⟩
  · intro e he heq
    obtain ⟨k, hk, ht⟩ := mkEdges_mem_target rest 0 e he
    rw [ht] at heq
    have := nodeId_inj9 (0 + k + 1) (by omega) 0 (by omega) heq
    omega
  · simp only [mkNodes, List.countP_cons]
    have htail : (mkNodes (0 + 1) rest).countP
        (fun nd => (mkEdges 0 rest).all
          (fun e => decide ¬(e.targetId = nd.id))) = 0 := by
      rw [List.countP_eq_zero]
      intro nd hnd
      obtain ⟨k, hk, hid⟩ := mkNodes_mem_id rest (0 + 1) nd hnd
      obtain ⟨e, he, ht⟩ := mkEdges_target_exists rest 0 k hk
      intro hall
      rw [List.all_eq_true] at hall
      have h3 := hall e he
      simp only [decide_eq_true_eq] at h3
      apply h3
      rw [ht, hid]
      congr 1
      omega
    rw [htail]
    have hallroot : ∀ e ∈ mkEdges 0 rest, ¬ e.targetId = nodeId 0 := by
      intro e he heq
      obtain ⟨k, hk, ht⟩ := mkEdges_mem_target rest 0 e he
      rw [ht] at heq
      have := nodeId_inj9 (0 + k + 1) (by omega) 0 (by omega) heq
      omega
    simp
    exact hallroot
  · intro nd hnd hne2
    simp only [mkNodes, List.mem_cons] at hnd
    rcases hnd with rfl | h2
    · exact absurd rfl hne2
    · obtain ⟨k, hk, hid⟩ := mkNodes_mem_id rest (0 + 1) nd h2
      have hcount := mkEdges_countP_target rest 0 k hk (by omega)
      rw [hid]
      have hidx : (0 + 1 + k) = 0 + k + 1 := by omega
      rw [hidx]
      exact hcount
  · intro e he
    exact mkEdges_source rest 0 e he

/-- Witness for the amended C6 on a concrete text with one extracted concept. -/
theorem c6_tree_invariant_witness :
    extractConcepts elephantText ≠ [] ∧
    (generateMindMapPure elephantText).nodes.countP
      (fun nd => (generateMindMapPure elephantText).edges.all
        (fun e => e.targetId ≠ nd.id)) = 1 :=
  ⟨by decide, (c6_tree_invariant elephantText (by decide)).2.2.1⟩

/-! ## Audio segment index lemmas -/

theorem mkSegments_length : ∀ (l : List String) (i : Nat) (d : ℚ),
    (mkSegments i d l).length = l.length
  | [], _, _ => rfl
  | _ :: rest, i, d => by simp [mkSegments, mkSegments_length rest (i + 1) d]

theorem mkSegments_get_startTime : ∀ (l : List String) (i : Nat) (d : ℚ) (j : Nat)
    (h : j < (mkSegments i d l).length),
    ((mkSegments i d l).get ⟨j, h⟩).startTime = ((i : ℚ) + (j : ℚ)) * d := by
  intro l
  induction l with
  | nil => intro i d j h; simp [mkSegments] at h
  | cons s rest ih =>
    intro i d j h
    cases j with
    | zero =>
      show (i : ℚ) * d = ((i : ℚ) + (0 : ℚ)) * d
      ring
    | succ j2 =>
      show ((mkSegments (i + 1) d rest).get ⟨j2, _⟩).startTime = _
      rw [ih (i + 1) d j2]
      push_cast
      ring

theorem mkSegments_get_endTime : ∀ (l : List String) (i : Nat) (d : ℚ) (j : Nat)
    (h : j < (mkSegments i d l).length),
    ((mkSegments i d l).get ⟨j, h⟩).endTime = ((i : ℚ) + (j : ℚ) + 1) * d := by
  intro l
  induction l with
  | nil => intro i d j h; simp [mkSegments] at h
  | cons s rest ih =>
    intro i d j h
    cases j with
    | zero =>
      show ((i : ℚ) + 1) * d = ((i : ℚ) + (0 : ℚ) + 1) * d
      ring
    | succ j2 =>
      show ((mkSegments (i + 1) d rest).get ⟨j2, _⟩).endTime = _
      rw [ih (i + 1) d j2]
      push_cast
      ring

/-! ## Claim C7: audio segments are contiguous and exhaust the duration -/

/-- C7 counterexample.  The claim as stated — for ANY non-empty adapted text
the final segment's end time equals the reported duration — is false: for the
non-empty text `"..."` there is no sentence with content, so there are no
segments at all (no last segment), while the script still reports duration 1
(`Math.ceil(1/3)` for the single "word" `...`). -/
theorem c7_counterexample :
    ¬ (∀ text : String, text ≠ "" →
        ((∀ i (h2 : i + 1 < (generateAudioLesson text).segments.length),
            ((generateAudioLesson text).segments.get
              ⟨i, Nat.lt_of_succ_lt h2⟩).endTime =
              ((generateAudioLesson text).segments.get ⟨i + 1, h2⟩).startTime) ∧
         ((generateAudioLesson text).segments.map (fun sg => sg.endTime)).getLast? =
           some ((generateAudioLesson text).duration : ℚ))) := by
  intro h
  have h2 := (h "..." (by decide)).2
  exact absurd h2 (by decide)

/-- C7 (amended).  For any adapted text with at least one sentence carrying
non-whitespace content, the audio segments are contiguous and non-overlapping
starting at time 0 — `segment[i].endTime = segment[i+1].startTime` — and the
last segment's end time equals the script's reported total duration (times as
exact rationals: each segment spans `duration / segmentCount`). -/
theorem c7_audio_segments_contiguous (text : String)
    (hne : sentencesOf text ≠ []) :
    (generateAudioLesson text).segments.length = (sentencesOf text).length ∧
    (∀ h0 : 0 < (generateAudioLesson text).segments.length,
      ((generateAudioLesson text).segments.get ⟨0, h0⟩).startTime = 0) ∧
    (∀ i (h2 : i + 1 < (generateAudioLesson text).segments.length),
      ((generateAudioLesson text).segments.get ⟨i, Nat.lt_of_succ_lt h2⟩).endTime =
        ((generateAudioLesson text).segments.get ⟨i + 1, h2⟩).startTime) ∧
    (∀ hn2 : (generateAudioLesson text).segments ≠ [],
      ((generateAudioLesson text).segments.getLast hn2).endTime =
        ((generateAudioLesson text).duration : ℚ)) := by
  have hn0 : (sentencesOf text).length ≠ 0 := by
    intro h0
    exact hne (List.length_eq_zero.mp h0)
  have hn : ((sentencesOf text).length : ℚ) ≠ 0 := Nat.cast_ne_zero.mpr hn0
  simp only [generateAudioLesson, createAudioSegments]
  refine ⟨mkSegments_length _ _ _, ?_, ?_, ?_⟩
  · intro h0
    rw [mkSegments_get_startTime]
    push_cast
    ring
  · intro i h2
    rw [mkSegments_get_endTime, mkSegments_get_startTime]
    push_cast
    ring
  · intro hn2
    have hlt : (mkSegments 0 (((((jsSplitWS text).length + 2) / 3 : Nat) : ℚ) /
        ((sentencesOf text).length : ℚ)) (sentencesOf text)).length - 1 <
        (mkSegments 0 (((((jsSplitWS text).length + 2) / 3 : Nat) : ℚ) /
          ((sentencesOf text).length : ℚ)) (sentencesOf text)).length := by
      rw [mkSegments_length]
      omega
    rw [← List.get_length_sub_one hlt, mkSegments_get_endTime]
    rw [mkSegments_length]
    have h1 : 1 ≤ (sentencesOf text).length := by omega
    rw [Nat.cast_sub h1]
    push_cast
    field_simp

/-- A two-sentence adapted text used by the C7 witness. -/
def helloText : String := "Hello there. Nice day."

/-- Witness for the amended C7 on a concrete two-sentence text
(4 words → duration 2, two segments of 1 each). -/
theorem c7_audio_segments_contiguous_witness :
    sentencesOf helloText ≠ [] ∧
    (generateAudioLesson helloText).segments.length = (sentencesOf helloText).length ∧
    ((generateAudioLesson helloText).segments.getLast (by decide)).endTime =
      ((generateAudioLesson helloText).duration : ℚ) :=
  ⟨by decide,
   (c7_audio_segments_contiguous helloText (by decide)).1,
   (c7_audio_segments_contiguous helloText (by decide)).2.2.2 (by decide)⟩

end LearnSphere
